import Mathlib

/-!
Verification development for the sweepstakes entry-submission pipeline.

The definitions below are a shallow embedding of the JavaScript sources:

* `src/utils.js` — `checkRateLimit`, `saveSubmissionRecord`, and the data-src
  fallback scanning logic shared with the entry pipelines;
* `src/hgtv-entry.js` — `submitHGTVEntry` (site "hgtv");
* `src/food-network-entry.js` — `submitFoodNetworkEntry` (site "foodnetwork").

The two entry pipelines are structurally identical and are embedded as one
function `submitEntry` parameterized by the site string.  Browser-world
nondeterminism (whether a stage throws, which text the page shows, what the
markup contains) is captured as explicit data in `BrowserEnv`.  Timestamps are
modelled as `Nat` instants; the conversion of an instant to a calendar-date
string in the fixed reference timezone (America/New_York, performed in the
source by `toLocaleString`) is an abstract parameter `etDate : Nat → String`.
File I/O on the submissions ledger is modelled by `ReadResult` (missing file,
readable contents, or a read/parse error) and `WriteBehavior`.
-/

namespace Hgtv

/-- A persisted ledger entry, as written by `saveSubmissionRecord`
(`src/utils.js` lines 210 to 215): site, success flag, error message and
timestamp of the attempt. -/
structure SubmissionRecord where
  site : String
  success : Bool
  error : Option String
  timestamp : Nat
deriving DecidableEq

/-- State of the submissions file as seen by one read: the file may be
missing (`existsSync` false), readable with parsed contents, or reading or
parsing may raise an error. -/
inductive ReadResult
  | missing
  | ok (records : List SubmissionRecord)
  | err (msg : String)
deriving DecidableEq

/-- Reading the ledger inside a try block: a missing file reads as the empty
sequence (`let submissions = []` in `src/utils.js` line 203), readable
contents parse to the records, and a failing read raises. -/
def readLedgerE : ReadResult → Except String (List SubmissionRecord)
  | .missing => .ok []
  | .ok l => .ok l
  | .err m => .error m

/-- One comparator step of the descending sort in `checkRateLimit`
(`src/utils.js` line 164): keep the record seen first unless the new one has
a strictly larger timestamp.  Node sorts are stable, so the head of the
sorted array is the first record attaining the maximal timestamp, which is
exactly what a left fold of this step computes. -/
def moreRecent (best x : SubmissionRecord) : SubmissionRecord :=
  if best.timestamp < x.timestamp then x else best

/-- `submissions.sort((a, b) => b.timestamp - a.timestamp)[0]` from
`src/utils.js` lines 162 to 164: the first record with the most recent
timestamp, or none for an empty list. -/
def mostRecent : List SubmissionRecord → Option SubmissionRecord
  | [] => none
  | a :: l => some (List.foldl moreRecent a l)

/-- Embedding of `checkRateLimit` (`src/utils.js` lines 152 to 193).
`etDate` abstracts `getETDate` (instant to calendar-date string in
America/New_York), `now` is the instant of the call.  A missing file and any
read or parse error return `true`; otherwise the successful records for the
site are filtered, the most recent is selected, and the call returns `false`
exactly when its reference-timezone date string equals that of `now`. -/
def checkRateLimit (etDate : Nat → String) (now : Nat) (site : String) :
    ReadResult → Bool
  | .missing => true
  | .err _ => true
  | .ok submissions =>
    match mostRecent (submissions.filter (fun s => s.site == site && s.success)) with
    | none => true
    | some last =>
      if etDate last.timestamp == etDate now then false else true

/-- The truncation step of `saveSubmissionRecord` (`src/utils.js` lines 218
to 220): when more than 100 entries are present keep only the last 100
(`submissions.slice(-100)`). -/
def truncateLedger (l : List SubmissionRecord) : List SubmissionRecord :=
  if l.length > 100 then l.drop (l.length - 100) else l

/-- The pure core of `saveSubmissionRecord` (`src/utils.js` lines 203 to
219): append the new record carrying the current instant, then truncate. -/
def saveSubmissionRecordCore (existing : List SubmissionRecord) (site : String)
    (success : Bool) (error : Option String) (now : Nat) :
    List SubmissionRecord :=
  truncateLedger (existing ++ [⟨site, success, error, now⟩])

/-- Whether `writeFileSync` on the submissions file succeeds or raises. -/
inductive WriteBehavior
  | ok
  | fails (msg : String)
deriving DecidableEq

/-- Observable outcome of one `saveSubmissionRecord` call: the file state
afterwards, the document written (if any), and the error message logged by
the internal catch (if any). -/
structure SaveOutcome where
  newFile : ReadResult
  written : Option (List SubmissionRecord)
  caught : Option String
deriving DecidableEq

/-- The try-block body of `saveSubmissionRecord` (`src/utils.js` lines 202
to 223): read (a missing file as empty), append, truncate, write; any raised
error propagates out of the body. -/
def saveSubmissionRecordBody (file : ReadResult) (wb : WriteBehavior)
    (site : String) (success : Bool) (error : Option String) (now : Nat) :
    Except String (List SubmissionRecord) :=
  match readLedgerE file with
  | .error m => .error m
  | .ok existing =>
    match wb with
    | .ok => .ok (saveSubmissionRecordCore existing site success error now)
    | .fails m => .error m

/-- Embedding of `saveSubmissionRecord` (`src/utils.js` lines 201 to 227):
the try-block body with the surrounding catch, which logs the error and
returns normally, leaving the file in its prior state. -/
def saveSubmissionRecord (file : ReadResult) (wb : WriteBehavior)
    (site : String) (success : Bool) (error : Option String) (now : Nat) :
    SaveOutcome :=
  match saveSubmissionRecordBody file wb site success error now with
  | .ok doc => { newFile := .ok doc, written := some doc, caught := none }
  | .error m => { newFile := file, written := none, caught := some m }

/-- The double-quote character, written via its code point. -/
def quoteChar : Char := Char.ofNat 34

/-- The characters of the fixed URL head required by the capture group of
the regex in `src/hgtv-entry.js` line 119. -/
def wayinPathChars : List Char := ("//xd.wayin.com/").data

/-- The literal part of the regex
`data-src="(\/\/xd\.wayin\.com\/[^"]+)"` up to the start of the
one-or-more character class. -/
def litDataSrc : List Char := ("data-src=").data ++ [quoteChar] ++ wayinPathChars

/-- Match a literal at the head of the input, returning the rest. -/
def dropLit : List Char → List Char → Option (List Char)
  | [], cs => some cs
  | _ :: _, [] => none
  | p :: ps, c :: cs => if p = c then dropLit ps cs else none

/-- Split the input at the first double quote: the greedy `[^"]+` body and
the remainder (which, when nonempty, starts with the closing quote). -/
def spanNotQuote : List Char → List Char × List Char
  | [] => ([], [])
  | c :: cs =>
    if c = quoteChar then ([], c :: cs)
    else
      let p := spanNotQuote cs
      (c :: p.1, p.2)

/-- Attempt the regex match at one position: the literal head, then at least
one non-quote character, then the closing quote; the capture is the URL
starting at the two slashes. -/
def tryMatchDataSrc (cs : List Char) : Option String :=
  match dropLit litDataSrc cs with
  | none => none
  | some rest =>
    if (spanNotQuote rest).1.isEmpty then none
    else
      match (spanNotQuote rest).2 with
      | [] => none
      | _ :: _ => some (String.mk (wayinPathChars ++ (spanNotQuote rest).1))

/-- Leftmost-match scan of the page markup, trying each start position in
order, as `html.match(...)` does. -/
def scanAux : List Char → Option String
  | [] => none
  | c :: rest =>
    match tryMatchDataSrc (c :: rest) with
    | some u => some u
    | none => scanAux rest

/-- `html.match(/data-src="(\/\/xd\.wayin\.com\/[^"]+)"/)` with capture
group 1 (`src/hgtv-entry.js` lines 118 to 121). -/
def scanDataSrc (html : String) : Option String := scanAux html.data

/-- `if (wayinUrl.startsWith('//')) wayinUrl = 'https:' + wayinUrl`
(`src/hgtv-entry.js` lines 125 to 127). -/
def normalizeWayinUrl (u : String) : String :=
  match u.data with
  | '/' :: '/' :: _ => "https:" ++ u
  | _ => u

/-- The resolved form surface: the wayin iframe found by the primary path,
or the main frame of the page after direct fallback navigation to the given
URL. -/
inductive FormSession
  | primary
  | fallbackMain (url : String)
deriving DecidableEq

/-- One run of browser-world nondeterminism, as data.  Each `Except` field
records whether the corresponding source operation completes or throws.
Operations whose failures the source swallows locally (the entry-button
click, `fillFormField`, the optional next, trivia and address steps,
`takeScreenshot`) cannot affect control flow or the ledger and are omitted.
`handleCaptcha` catches internally and returns a boolean, captured by
`captchaSolved`. -/
structure BrowserEnv where
  launch : Except String Unit
  gotoEntry : Except String Unit
  primaryFrame : Except String Unit
  dataSrcAttr : Option String
  pageHtml : String
  directNav : String → Except String Unit
  emailClick : Except String Unit
  captchaSolved : Bool
  submitClick : Except String Unit
  confirmationText : String

/-- The form-locating step with fallback (`src/hgtv-entry.js` lines 103 to
142, identical in `src/food-network-entry.js` lines 98 to 129).  If
`waitForIframe` succeeds the frame is the session.  Otherwise the iframe
data-src attribute is consulted; a missing or falsy (empty) value falls
through to the markup regex scan.  A found URL is normalized and navigated
to, the main frame becoming the session; no URL is a thrown error. -/
def locateForm (env : BrowserEnv) : Except String FormSession :=
  match env.primaryFrame with
  | .ok _ => .ok .primary
  | .error _ =>
    let fromAttr : Option String :=
      match env.dataSrcAttr with
      | some u => if u.isEmpty then none else some u
      | none => none
    let wayinUrl : Option String :=
      match fromAttr with
      | some u => some u
      | none => scanDataSrc env.pageHtml
    match wayinUrl with
    | some u =>
      let url := normalizeWayinUrl u
      match env.directNav url with
      | .ok _ => .ok (.fallbackMain url)
      | .error m => .error m
    | none => .error "Could not find Wayin URL (data-src) for direct navigation"

/-- Lowercased characters of a string, mirroring `toLowerCase()` on the
ASCII text the classifier inspects. -/
def lowerChars (s : String) : List Char := s.data.map Char.toLower

/-- Whether the needle occurs at the head of the haystack. -/
def hasPrefChars : List Char → List Char → Bool
  | [], _ => true
  | _ :: _, [] => false
  | n :: ns, h :: hs => n == h && hasPrefChars ns hs

/-- Substring test, mirroring `String.prototype.includes`. -/
def charsContainsSub (needle : List Char) : List Char → Bool
  | [] => needle.isEmpty
  | h :: hs => hasPrefChars needle (h :: hs) || charsContainsSub needle hs

/-- The success test of `src/hgtv-entry.js` lines 256 to 258: the lowercased
page text contains one of the fixed substrings thank, entered, success. -/
def hasSuccessKeyword (text : String) : Bool :=
  let low := lowerChars text
  charsContainsSub (lowerChars "thank") low ||
  charsContainsSub (lowerChars "entered") low ||
  charsContainsSub (lowerChars "success") low

/-- Classification after a non-throwing submit click (`src/hgtv-entry.js`
lines 256 to 264): a recognized success substring sets success, and the
ambiguous branch (no substring, no thrown error) also sets success by
policy.  Both branches of the source set the flag to true. -/
def classifyConfirmation (text : String) : Bool :=
  if hasSuccessKeyword text then
    true
  else
    true

/-- The non-dry submit stage (`src/hgtv-entry.js` lines 246 to 268): the
click and settle sequence either completes, after which the page text is
classified, or throws, which the local catch turns into a retained
`success = false`. -/
def submitStage (env : BrowserEnv) : Bool :=
  match env.submitClick with
  | .error _ => false
  | .ok _ => classifyConfirmation env.confirmationText

/-- How the big try block of the pipeline exits: normal completion carrying
the success flag and whether the real submit click was invoked, the early
return on an unresolved challenge in a non-dry run, or a thrown stage error
caught by the outer catch. -/
inductive TryExit
  | normal (success : Bool) (invokedSubmit : Bool) (session : FormSession)
  | earlyCaptcha (session : FormSession)
  | thrown (msg : String) (launched : Bool) (session : Option FormSession)

/-- The value of the `success` variable when the finally block runs, which
is also the value the function returns. -/
def TryExit.ret : TryExit → Bool
  | .normal s _ _ => s
  | .earlyCaptcha _ => false
  | .thrown _ _ _ => false

/-- Whether the browser was launched on this exit path. -/
def TryExit.launched : TryExit → Bool
  | .normal _ _ _ => true
  | .earlyCaptcha _ => true
  | .thrown _ l _ => l

/-- Whether the real submit click was invoked on this exit path. -/
def TryExit.invoked : TryExit → Bool
  | .normal _ i _ => i
  | .earlyCaptcha _ => false
  | .thrown _ _ _ => false

/-- The form session resolved on this exit path, if any. -/
def TryExit.sess : TryExit → Option FormSession
  | .normal _ _ s => some s
  | .earlyCaptcha s => some s
  | .thrown _ _ s => s

/-- The try block of `submitHGTVEntry` (`src/hgtv-entry.js` lines 31 to
269): launch, navigate, locate the form (with fallback), the load-bearing
email click, the challenge check, and either the dry-run synthesized
success or the real submit stage.  A throw in any load-bearing operation
exits via `thrown`; an unresolved challenge in a non-dry run exits via
`earlyCaptcha` (the `return false` at line 235, which still runs the
finally block with the success variable false). -/
def runTry (dryRun : Bool) (env : BrowserEnv) : TryExit :=
  match env.launch with
  | .error m => .thrown m false none
  | .ok _ =>
    match env.gotoEntry with
    | .error m => .thrown m true none
    | .ok _ =>
      match locateForm env with
      | .error m => .thrown m true none
      | .ok session =>
        match env.emailClick with
        | .error m => .thrown m true (some session)
        | .ok _ =>
          if !env.captchaSolved && !dryRun then
            .earlyCaptcha session
          else if dryRun then
            .normal true false session
          else
            .normal (submitStage env) true session

/-- Observable trace of one pipeline run: the boolean it returns, whether
the browser was launched, whether the real submit click was invoked, the
document the record step wrote (if any), the submissions file afterwards,
and the resolved form session. -/
structure PipelineTrace where
  result : Bool
  browserLaunched : Bool
  submitInvoked : Bool
  recordedWrite : Option (List SubmissionRecord)
  fileAfter : ReadResult
  session : Option FormSession
deriving DecidableEq

/-- Embedding of `submitHGTVEntry` (`src/hgtv-entry.js` lines 19 to 294) and
the structurally identical `submitFoodNetworkEntry`, parameterized by the
site string.  `checkTime` is the instant of the rate check, `recTime` the
instant of the record step; `file` is the submissions file as read by the
rate check and `fileRec` as read by the record step (the same file, read
twice by the source).  A non-dry run is denied before any browser
interaction when the rate check refuses; the finally block records the
outcome for non-dry runs only, with the error field
`success ? null : 'See logs for details'` (line 289). -/
def submitEntry (etDate : Nat → String) (site : String) (dryRun : Bool)
    (checkTime recTime : Nat) (file fileRec : ReadResult)
    (wb : WriteBehavior) (env : BrowserEnv) : PipelineTrace :=
  if !dryRun && !(checkRateLimit etDate checkTime site file) then
    { result := false, browserLaunched := false, submitInvoked := false,
      recordedWrite := none, fileAfter := fileRec, session := none }
  else
    let body := runTry dryRun env
    if dryRun then
      { result := body.ret, browserLaunched := body.launched,
        submitInvoked := body.invoked, recordedWrite := none,
        fileAfter := fileRec, session := body.sess }
    else
      let saved := saveSubmissionRecord fileRec wb site body.ret
        (if body.ret then none else some "See logs for details") recTime
      { result := body.ret, browserLaunched := body.launched,
        submitInvoked := body.invoked, recordedWrite := saved.written,
        fileAfter := saved.newFile, session := body.sess }

/-- A constant reference-timezone date function: every instant falls on the
same calendar day.  Used to instantiate concrete runs. -/
def etConst : Nat → String := fun _ => "day"

/-- A concrete environment in which every stage completes and the page
shows a recognized success phrase. -/
def envAllOk : BrowserEnv :=
  { launch := .ok (), gotoEntry := .ok (), primaryFrame := .ok (),
    dataSrcAttr := none, pageHtml := "", directNav := fun _ => .ok (),
    emailClick := .ok (), captchaSolved := true, submitClick := .ok (),
    confirmationText := "Thank you for entering" }

/-- Like `envAllOk` but the submit click throws. -/
def envSubmitThrows : BrowserEnv :=
  { envAllOk with submitClick := .error "boom", confirmationText := "" }

/-- Like `envAllOk` but the load-bearing email click throws. -/
def envEmailFails : BrowserEnv :=
  { envAllOk with emailClick := .error "Could not click xCheckUser" }

/-- Like `envAllOk` but the primary iframe never loads and the markup holds
a protocol-relative data-src URL, so the fallback path is exercised. -/
def envScanFallback : BrowserEnv :=
  { envAllOk with
    primaryFrame := .error "Wayin iframe content did not load",
    pageHtml := "<html><iframe id=ngxFrame42 data-src=\x22//xd.wayin.com/abc\x22></iframe></html>" }

/-- A ledger already holding a successful record: under `etConst` every run
is on the same calendar day as this record. -/
def todaySuccessFile : ReadResult := .ok [⟨"hgtv", true, none, 0⟩]

/-- The record selected by the sort-and-take-head step is an element of the
list it was selected from. -/
theorem foldl_moreRecent_mem (a : SubmissionRecord) (l : List SubmissionRecord) :
    List.foldl moreRecent a l ∈ a :: l := by
  induction l generalizing a with
  | nil => simp [List.foldl]
  | cons x xs ih =>
    have hx : moreRecent a x = a ∨ moreRecent a x = x := by
      unfold moreRecent; split <;> simp
    have h := ih (moreRecent a x)
    simp only [List.foldl]
    rcases List.mem_cons.mp h with h1 | h1
    · rcases hx with h2 | h2 <;> rw [h1, h2] <;> simp
    · simp [List.mem_cons_of_mem, h1]

/-- The record selected by the sort-and-take-head step has a timestamp at
least as large as every element of the list it was selected from. -/
theorem foldl_moreRecent_le (a : SubmissionRecord) (l : List SubmissionRecord) :
    ∀ x ∈ a :: l, x.timestamp ≤ (List.foldl moreRecent a l).timestamp := by
  induction l generalizing a with
  | nil =>
    intro x hx
    rcases List.mem_cons.mp hx with h | h
    · subst h; simp [List.foldl]
    · simp at h
  | cons y ys ih =>
    intro x hx
    have hbase : a.timestamp ≤ (moreRecent a y).timestamp ∧
        y.timestamp ≤ (moreRecent a y).timestamp := by
      unfold moreRecent; split <;> omega
    have hhead := ih (moreRecent a y) (moreRecent a y) (List.mem_cons_self _ _)
    simp only [List.foldl]
    rcases List.mem_cons.mp hx with h | h
    · subst h; exact le_trans hbase.1 hhead
    · rcases List.mem_cons.mp h with h1 | h1
      · subst h1; exact le_trans hbase.2 hhead
      · exact ih (moreRecent a y) x (List.mem_cons_of_mem _ h1)

/-- The most recent record is an element of the list. -/
theorem mostRecent_mem {l : List SubmissionRecord} {r : SubmissionRecord}
    (h : mostRecent l = some r) : r ∈ l := by
  cases l with
  | nil => simp [mostRecent] at h
  | cons a as =>
    simp only [mostRecent, Option.some.injEq] at h
    rw [← h]
    exact foldl_moreRecent_mem a as

/-- The most recent record has a maximal timestamp in the list. -/
theorem mostRecent_le {l : List SubmissionRecord} {r : SubmissionRecord}
    (h : mostRecent l = some r) : ∀ x ∈ l, x.timestamp ≤ r.timestamp := by
  cases l with
  | nil => simp [mostRecent] at h
  | cons a as =>
    simp only [mostRecent, Option.some.injEq] at h
    intro x hx
    rw [← h]
    exact foldl_moreRecent_le a as x hx

/-- A nonempty list has a most recent record. -/
theorem mostRecent_isSome {l : List SubmissionRecord} (h : l ≠ []) :
    ∃ r, mostRecent l = some r := by
  cases l with
  | nil => exact absurd rfl h
  | cons a as => exact ⟨_, rfl⟩

/-- The truncated ledger is a suffix of the input: survivors keep their
relative order and are the most recent entries. -/
theorem truncateLedger_suffix (l : List SubmissionRecord) :
    truncateLedger l <:+ l := by
  unfold truncateLedger
  split
  · exact List.drop_suffix _ _
  · exact List.suffix_refl _

/-- Truncation keeps a list of at most 100 entries untouched. -/
theorem truncateLedger_of_le (l : List SubmissionRecord) (h : l.length ≤ 100) :
    truncateLedger l = l := by
  unfold truncateLedger
  split
  · next h2 => omega
  · rfl

/-- Truncation of a list of more than 100 entries yields exactly 100. -/
theorem truncateLedger_length_of_gt (l : List SubmissionRecord)
    (h : 100 < l.length) : (truncateLedger l).length = 100 := by
  unfold truncateLedger
  split
  · next h2 => rw [List.length_drop]; omega
  · next h2 => omega

/-- The last element of a nonempty tail survives truncation: truncating a
sequence ending in the new record yields a document still ending in it. -/
theorem truncateLedger_concat_getLast (l : List SubmissionRecord)
    (a : SubmissionRecord) :
    (truncateLedger (l ++ [a])).getLast? = some a := by
  unfold truncateLedger
  split
  · next h =>
    have hlen : (l ++ [a]).length = l.length + 1 := by simp
    have hle : (l ++ [a]).length - 100 ≤ l.length := by omega
    rw [List.drop_append_of_le_length hle]
    exact List.getLast?_concat _
  · exact List.getLast?_concat _

/-- The appended record is an element of the truncated document. -/
theorem truncateLedger_concat_mem (l : List SubmissionRecord)
    (a : SubmissionRecord) : a ∈ truncateLedger (l ++ [a]) := by
  unfold truncateLedger
  split
  · next h =>
    have hlen : (l ++ [a]).length = l.length + 1 := by simp
    have hle : (l ++ [a]).length - 100 ≤ l.length := by omega
    rw [List.drop_append_of_le_length hle]
    simp
  · simp

/-- A successful regex match captures the fixed URL head followed by a
nonempty body of non-quote characters. -/
theorem tryMatchDataSrc_sound {cs : List Char} {u : String}
    (h : tryMatchDataSrc cs = some u) :
    ∃ body, body ≠ [] ∧ u.data = wayinPathChars ++ body := by
  unfold tryMatchDataSrc at h
  split at h
  · exact Option.noConfusion h
  · next rest heq =>
    split at h
    · exact Option.noConfusion h
    · next he =>
      split at h
      · exact Option.noConfusion h
      · refine ⟨(spanNotQuote rest).1, ?_, ?_⟩
        · intro hnil
          exact he (by rw [hnil]; rfl)
        · rw [← Option.some.inj h]

/-- Soundness of the leftmost scan: whatever it returns was captured by a
match at some position. -/
theorem scanAux_sound {cs : List Char} {u : String}
    (h : scanAux cs = some u) :
    ∃ body, body ≠ [] ∧ u.data = wayinPathChars ++ body := by
  induction cs with
  | nil => simp [scanAux] at h
  | cons c rest ih =>
    unfold scanAux at h
    split at h
    · next u2 heq =>
      have := Option.some.inj h
      exact this ▸ tryMatchDataSrc_sound heq
    · exact ih h

/-- Any URL found by the markup scan starts with the fixed
protocol-relative head. -/
theorem scanDataSrc_sound {html : String} {u : String}
    (h : scanDataSrc html = some u) :
    ∃ body, body ≠ [] ∧ u.data = wayinPathChars ++ body :=
  scanAux_sound h

/-- A URL whose characters start with the fixed protocol-relative head is
normalized by prefixing the protocol. -/
theorem normalizeWayinUrl_wayin {u : String} {body : List Char}
    (h : u.data = wayinPathChars ++ body) :
    normalizeWayinUrl u = "https:" ++ u := by
  unfold normalizeWayinUrl
  rw [h]
  rfl

/-- A rate-check refusal makes a non-dry run return false at once: the
browser is never launched, the submit click never invoked, and nothing is
written to the ledger. -/
theorem submitEntry_denied (etDate : Nat → String) (site : String)
    (t0 tr : Nat) (file fileRec : ReadResult) (wb : WriteBehavior)
    (env : BrowserEnv) (h : checkRateLimit etDate t0 site file = false) :
    submitEntry etDate site false t0 tr file fileRec wb env =
      { result := false, browserLaunched := false, submitInvoked := false,
        recordedWrite := none, fileAfter := fileRec, session := none } := by
  simp [submitEntry, h]

/-- When the rate check allows it, a non-dry run executes the try block and
its finally block records the outcome. -/
theorem submitEntry_allowed (etDate : Nat → String) (site : String)
    (t0 tr : Nat) (file fileRec : ReadResult) (wb : WriteBehavior)
    (env : BrowserEnv) (h : checkRateLimit etDate t0 site file = true) :
    submitEntry etDate site false t0 tr file fileRec wb env =
      { result := (runTry false env).ret,
        browserLaunched := (runTry false env).launched,
        submitInvoked := (runTry false env).invoked,
        recordedWrite := (saveSubmissionRecord fileRec wb site (runTry false env).ret
          (if (runTry false env).ret then none else some "See logs for details") tr).written,
        fileAfter := (saveSubmissionRecord fileRec wb site (runTry false env).ret
          (if (runTry false env).ret then none else some "See logs for details") tr).newFile,
        session := (runTry false env).sess } := by
  simp [submitEntry, h]

/-- When every load-bearing stage up to the challenge completes, the try
block ends normally: a dry run synthesizes success without invoking the
submit click, a non-dry run with a resolved challenge proceeds to the
submit stage. -/
theorem runTry_all_ok (dryRun : Bool) (env : BrowserEnv)
    (hlaunch : env.launch = .ok ()) (hgoto : env.gotoEntry = .ok ())
    (hframe : env.primaryFrame = .ok ()) (hemail : env.emailClick = .ok ()) :
    runTry dryRun env =
      if !env.captchaSolved && !dryRun then .earlyCaptcha .primary
      else if dryRun then .normal true false .primary
      else .normal (submitStage env) true .primary := by
  unfold runTry locateForm
  rw [hlaunch, hgoto, hframe, hemail]

/-- Claim C2: for every readable ledger, `checkRateLimit` returns true when
no successful record for the site exists; otherwise it selects the
successful record for the site with the most recent timestamp and returns
false exactly when that record falls on the same reference-timezone
calendar day as now; in particular a most recent success on a different
calendar day yields true. -/
theorem c2_rate_check_contract (etDate : Nat → String) (now : Nat)
    (site : String) (records : List SubmissionRecord) :
    ((∀ r ∈ records, ¬(r.site = site ∧ r.success = true)) →
      checkRateLimit etDate now site (.ok records) = true) ∧
    ((records.filter (fun s => s.site == site && s.success)) ≠ [] →
      ∃ r, mostRecent (records.filter (fun s => s.site == site && s.success)) = some r) ∧
    (∀ r, mostRecent (records.filter (fun s => s.site == site && s.success)) = some r →
      r ∈ records ∧ r.site = site ∧ r.success = true ∧
      (∀ x ∈ records, x.site = site → x.success = true → x.timestamp ≤ r.timestamp) ∧
      (checkRateLimit etDate now site (.ok records) = false ↔
        etDate r.timestamp = etDate now) ∧
      (etDate r.timestamp ≠ etDate now →
        checkRateLimit etDate now site (.ok records) = true)) := by
  refine ⟨?_, ?_, ?_⟩
  · intro h
    have hfil : records.filter (fun s => s.site == site && s.success) = [] := by
      rw [List.filter_eq_nil_iff]
      intro a ha hab
      simp only [Bool.and_eq_true, beq_iff_eq] at hab
      exact h a ha ⟨hab.1, hab.2⟩
    simp [checkRateLimit, hfil, mostRecent]
  · intro h
    exact mostRecent_isSome h
  · intro r hr
    have hmem := mostRecent_mem hr
    have hmem2 := List.mem_filter.mp hmem
    have hpred := hmem2.2
    simp only [Bool.and_eq_true, beq_iff_eq] at hpred
    refine ⟨hmem2.1, hpred.1, hpred.2, ?_, ?_, ?_⟩
    · intro x hx h1 h2
      have hxf : x ∈ records.filter (fun s => s.site == site && s.success) :=
        List.mem_filter.mpr ⟨hx, by simp [h1, h2]⟩
      exact mostRecent_le hr x hxf
    · simp only [checkRateLimit]
      rw [hr]
      by_cases hd : etDate r.timestamp = etDate now <;> simp [hd]
    · intro hd
      simp only [checkRateLimit]
      rw [hr]
      simp [hd]

/-- Witness for C2 at a concrete input: a ledger whose only record is a
success for the site on the same (constant) calendar day is refused. -/
theorem c2_rate_check_contract_w :
    checkRateLimit etConst 7 "hgtv" (.ok [⟨"hgtv", true, none, 5⟩]) = false := by
  have h := (c2_rate_check_contract etConst 7 "hgtv" [⟨"hgtv", true, none, 5⟩]).2.2
      ⟨"hgtv", true, none, 5⟩ rfl
  exact h.2.2.2.2.1.mpr rfl

/-- Claim C5: a dry-run invocation writes nothing to the ledger, whatever
the environment, the ledger contents, the write behavior or the outcome:
the record step is skipped and the submissions file is left as it was. -/
theorem c5_dry_run_writes_nothing (etDate : Nat → String) (site : String)
    (t0 tr : Nat) (file fileRec : ReadResult) (wb : WriteBehavior)
    (env : BrowserEnv) :
    (submitEntry etDate site true t0 tr file fileRec wb env).recordedWrite = none ∧
    (submitEntry etDate site true t0 tr file fileRec wb env).fileAfter = fileRec := by
  constructor <;> simp [submitEntry]

/-- Claim C6: a ledger read or parse error makes `checkRateLimit` fail
open, returning true rather than blocking the submission attempt. -/
theorem c6_rate_check_fails_open (etDate : Nat → String) (now : Nat)
    (site m : String) : checkRateLimit etDate now site (.err m) = true := rfl

/-- Claim C7: on a readable submissions file (a missing file reading as the
empty sequence) `saveSubmissionRecord` rewrites the document as the prior
sequence with exactly one new record carrying the current timestamp
appended; a sequence that fits the 100-entry bound is kept whole, and one
exceeding it is truncated to exactly the most recent 100 with the relative
order of survivors preserved (the document is a suffix of the appended
sequence). -/
theorem c7_save_append_truncate (file : ReadResult)
    (existing : List SubmissionRecord) (site : String) (success : Bool)
    (error : Option String) (now : Nat)
    (hread : readLedgerE file = .ok existing) :
    (saveSubmissionRecord file .ok site success error now).written =
      some (saveSubmissionRecordCore existing site success error now) ∧
    (saveSubmissionRecord file .ok site success error now).newFile =
      .ok (saveSubmissionRecordCore existing site success error now) ∧
    saveSubmissionRecordCore existing site success error now <:+
      existing ++ [(⟨site, success, error, now⟩ : SubmissionRecord)] ∧
    (saveSubmissionRecordCore existing site success error now).getLast? =
      some ⟨site, success, error, now⟩ ∧
    ((existing ++ [(⟨site, success, error, now⟩ : SubmissionRecord)]).length ≤ 100 →
      saveSubmissionRecordCore existing site success error now =
        existing ++ [(⟨site, success, error, now⟩ : SubmissionRecord)]) ∧
    (100 < (existing ++ [(⟨site, success, error, now⟩ : SubmissionRecord)]).length →
      (saveSubmissionRecordCore existing site success error now).length = 100) := by
  refine ⟨?_, ?_, truncateLedger_suffix _, truncateLedger_concat_getLast _ _,
    ?_, ?_⟩
  · unfold saveSubmissionRecord saveSubmissionRecordBody
    rw [hread]
  · unfold saveSubmissionRecord saveSubmissionRecordBody
    rw [hread]
  · intro h
    exact truncateLedger_of_le _ h
  · intro h
    exact truncateLedger_length_of_gt _ h

/-- Witness for C7 at a concrete input: recording into a missing file
writes the one-record document. -/
theorem c7_save_append_truncate_w :
    (saveSubmissionRecord .missing .ok "hgtv" true none 5).written =
      some (saveSubmissionRecordCore [] "hgtv" true none 5) :=
  (c7_save_append_truncate .missing [] "hgtv" true none 5 rfl).1

/-- Claim C10: `saveSubmissionRecord` never propagates an error: either the
call succeeds with nothing caught, or the raised error is caught and logged
with the file left unchanged and nothing written; consequently the boolean
a pipeline run returns does not depend on the record step, whatever the
file contents it reads or the write behavior. -/
theorem c10_record_step_isolated :
    (∀ (file : ReadResult) (wb : WriteBehavior) (site : String) (b : Bool)
        (e : Option String) (t : Nat),
        (saveSubmissionRecord file wb site b e t).caught = none ∨
        ((saveSubmissionRecord file wb site b e t).newFile = file ∧
         (saveSubmissionRecord file wb site b e t).written = none)) ∧
    (∀ (etDate : Nat → String) (site : String) (d : Bool) (t0 tr : Nat)
        (file fileRec fileRec' : ReadResult) (wb wb' : WriteBehavior)
        (env : BrowserEnv),
        (submitEntry etDate site d t0 tr file fileRec wb env).result =
        (submitEntry etDate site d t0 tr file fileRec' wb' env).result) := by
  constructor
  · intro file wb site b e t
    unfold saveSubmissionRecord
    cases h : saveSubmissionRecordBody file wb site b e t <;> simp
  · intro etDate site d t0 tr file fileRec fileRec' wb wb' env
    unfold submitEntry
    cases h : (!d && !(checkRateLimit etDate t0 site file)) with
    | false =>
      simp
      cases d <;> simp
    | true => simp

/-- Claim C1: once a non-dry run for a site completes with a recorded
success at instant t1, the rate check on the resulting ledger refuses any
instant t2 of the same reference-timezone calendar day, so a second non-dry
run for the same site started then returns false with no browser
interaction and appends nothing: at most one success record per site and
reference-timezone day enters the ledger. -/
theorem c1_second_run_denied_same_day (etDate : Nat → String) (site : String)
    (t0 t1 t2 tr2 : Nat) (file : ReadResult)
    (existing : List SubmissionRecord) (env1 env2 : BrowserEnv)
    (wb2 : WriteBehavior)
    (hread : readLedgerE file = .ok existing)
    (hpast : ∀ r ∈ existing, r.timestamp ≤ t1)
    (hres : (submitEntry etDate site false t0 t1 file file .ok env1).result = true)
    (hday : etDate t1 = etDate t2) :
    checkRateLimit etDate t2 site
      (submitEntry etDate site false t0 t1 file file .ok env1).fileAfter = false ∧
    submitEntry etDate site false t2 tr2
      (submitEntry etDate site false t0 t1 file file .ok env1).fileAfter
      (submitEntry etDate site false t0 t1 file file .ok env1).fileAfter
      wb2 env2 =
      { result := false, browserLaunched := false, submitInvoked := false,
        recordedWrite := none,
        fileAfter := (submitEntry etDate site false t0 t1 file file .ok env1).fileAfter,
        session := none } := by
  cases hchk : checkRateLimit etDate t0 site file with
  | false =>
    rw [submitEntry_denied etDate site t0 t1 file file .ok env1 hchk] at hres
    simp at hres
  | true =>
    have hall := submitEntry_allowed etDate site t0 t1 file file .ok env1 hchk
    rw [hall] at hres
    simp at hres
    have hfa : (submitEntry etDate site false t0 t1 file file .ok env1).fileAfter =
        .ok (saveSubmissionRecordCore existing site true none t1) := by
      rw [hall]
      simp [hres, saveSubmissionRecord, saveSubmissionRecordBody, hread]
    have hrecmem : (⟨site, true, none, t1⟩ : SubmissionRecord) ∈
        saveSubmissionRecordCore existing site true none t1 :=
      truncateLedger_concat_mem existing ⟨site, true, none, t1⟩
    have hrfil : (⟨site, true, none, t1⟩ : SubmissionRecord) ∈
        (saveSubmissionRecordCore existing site true none t1).filter
          (fun s => s.site == site && s.success) :=
      List.mem_filter.mpr ⟨hrecmem, by simp⟩
    have hne : (saveSubmissionRecordCore existing site true none t1).filter
        (fun s => s.site == site && s.success) ≠ [] := by
      intro h0
      rw [h0] at hrfil
      simp at hrfil
    obtain ⟨r, hr⟩ := mostRecent_isSome hne
    have hrmem := List.mem_filter.mp (mostRecent_mem hr)
    have hrle : r.timestamp ≤ t1 := by
      have hsub : r ∈ existing ++ [(⟨site, true, none, t1⟩ : SubmissionRecord)] :=
        (truncateLedger_suffix _).subset hrmem.1
      rcases List.mem_append.mp hsub with h1 | h1
      · exact hpast r h1
      · simp at h1
        simp [h1]
    have hge : t1 ≤ r.timestamp := mostRecent_le hr _ hrfil
    have hts : r.timestamp = t1 := le_antisymm hrle hge
    have hchk2 : checkRateLimit etDate t2 site
        (.ok (saveSubmissionRecordCore existing site true none t1)) = false := by
      simp only [checkRateLimit]
      rw [hr]
      simp [hts, hday]
    rw [hfa]
    exact ⟨hchk2, submitEntry_denied etDate site t2 tr2 _ _ wb2 env2 hchk2⟩

/-- Witness for C1 at a concrete input: a first all-stages-succeed run on a
missing ledger, then a same-day second run, which is denied. -/
theorem c1_second_run_denied_same_day_w :
    checkRateLimit etConst 2 "hgtv"
      (submitEntry etConst "hgtv" false 0 1 .missing .missing .ok envAllOk).fileAfter = false ∧
    submitEntry etConst "hgtv" false 2 3
      (submitEntry etConst "hgtv" false 0 1 .missing .missing .ok envAllOk).fileAfter
      (submitEntry etConst "hgtv" false 0 1 .missing .missing .ok envAllOk).fileAfter
      .ok envAllOk =
      { result := false, browserLaunched := false, submitInvoked := false,
        recordedWrite := none,
        fileAfter := (submitEntry etConst "hgtv" false 0 1 .missing .missing .ok
          envAllOk).fileAfter,
        session := none } :=
  c1_second_run_denied_same_day etConst "hgtv" 0 1 2 3 .missing [] envAllOk envAllOk .ok
    rfl (by simp) (by decide) rfl

/-- Counterexample to claim C3 as stated: a dry run neither executes the
rate check (it proceeds to launch the browser on a ledger the check would
refuse) nor always returns true (a thrown load-bearing stage error makes it
return false). -/
theorem c3_dry_run_counterexample :
    checkRateLimit etConst 0 "hgtv" todaySuccessFile = false ∧
    (submitEntry etConst "hgtv" true 0 5 todaySuccessFile todaySuccessFile .ok
      envEmailFails).browserLaunched = true ∧
    (submitEntry etConst "hgtv" true 0 5 todaySuccessFile todaySuccessFile .ok
      envEmailFails).result = false :=
  ⟨by decide, by decide, by decide⟩

/-- Claim C3 as amended: a dry-run invocation skips the rate check entirely
(it proceeds whatever the ledger holds); when the stages through the
challenge complete without a thrown error it returns success = true without
invoking the real submit action and without writing a ledger record. -/
theorem c3_dry_run_amended (etDate : Nat → String) (site : String)
    (t0 tr : Nat) (file fileRec : ReadResult) (wb : WriteBehavior)
    (env : BrowserEnv)
    (hlaunch : env.launch = .ok ()) (hgoto : env.gotoEntry = .ok ())
    (hframe : env.primaryFrame = .ok ()) (hemail : env.emailClick = .ok ()) :
    (submitEntry etDate site true t0 tr file fileRec wb env).result = true ∧
    (submitEntry etDate site true t0 tr file fileRec wb env).submitInvoked = false ∧
    (submitEntry etDate site true t0 tr file fileRec wb env).browserLaunched = true ∧
    (submitEntry etDate site true t0 tr file fileRec wb env).recordedWrite = none := by
  have hrt := runTry_all_ok true env hlaunch hgoto hframe hemail
  simp at hrt
  refine ⟨?_, ?_, ?_, ?_⟩ <;>
    simp [submitEntry, hrt, TryExit.ret, TryExit.invoked, TryExit.launched]

/-- Witness for the amended C3 at a concrete input: a dry run over a ledger
the rate check would refuse still completes with true and writes nothing. -/
theorem c3_dry_run_amended_w :
    (submitEntry etConst "hgtv" true 0 5 todaySuccessFile todaySuccessFile .ok
      envAllOk).result = true :=
  (c3_dry_run_amended etConst "hgtv" 0 5 todaySuccessFile todaySuccessFile .ok envAllOk
    rfl rfl rfl rfl).1

/-- Counterexample to claim C4 as stated: a non-dry run whose submit click
throws with message boom appends a failure record whose error field is the
fixed string, not the triggering message. -/
theorem c4_error_field_counterexample :
    (submitEntry etConst "hgtv" false 0 5 .missing .missing .ok
      envSubmitThrows).recordedWrite =
      some [⟨"hgtv", false, some "See logs for details", 5⟩] ∧
    (some "See logs for details" : Option String) ≠ some "boom" :=
  ⟨by decide, by decide⟩

/-- Claim C4 as amended: whenever a non-dry run that passed the rate check
fails (a load-bearing stage throws, the challenge is unresolved, or the
submit click throws), the record appended for the run has success = false
and its error field carries the fixed string
"See logs for details" (the triggering message goes to the log, not the
ledger). -/
theorem c4_failure_record_amended (etDate : Nat → String) (site : String)
    (t0 tr : Nat) (file : ReadResult) (existing : List SubmissionRecord)
    (env : BrowserEnv)
    (hallow : checkRateLimit etDate t0 site file = true)
    (hread : readLedgerE file = .ok existing)
    (hres : (submitEntry etDate site false t0 tr file file .ok env).result = false) :
    (submitEntry etDate site false t0 tr file file .ok env).recordedWrite =
      some (saveSubmissionRecordCore existing site false
        (some "See logs for details") tr) ∧
    (saveSubmissionRecordCore existing site false
      (some "See logs for details") tr).getLast? =
      some ⟨site, false, some "See logs for details", tr⟩ := by
  have hall := submitEntry_allowed etDate site t0 tr file file .ok env hallow
  rw [hall] at hres
  simp at hres
  constructor
  · rw [hall]
    simp [hres, saveSubmissionRecord, saveSubmissionRecordBody, hread]
  · exact truncateLedger_concat_getLast _ _

/-- Witness for the amended C4 at a concrete input: the submit click throws
boom and the appended record carries the fixed error string. -/
theorem c4_failure_record_amended_w :
    (submitEntry etConst "hgtv" false 0 5 .missing .missing .ok
      envSubmitThrows).recordedWrite =
      some (saveSubmissionRecordCore [] "hgtv" false (some "See logs for details") 5) :=
  (c4_failure_record_amended etConst "hgtv" 0 5 .missing [] envSubmitThrows
    rfl rfl (by decide)).1

/-- Claim C8: when the primary path fails, the locator consults the iframe
data-src attribute; with no (truthy) attribute it regex-scans the markup
for a data-src URL on the fixed form-hosting host; any scanned URL starts
with the protocol-relative head and is normalized by prefixing https:, the
page navigates there and the main frame becomes the form session; if
neither source yields a URL the locate step throws, which is fatal for the
run: the pipeline returns false and the submit is never attempted. -/
theorem c8_fallback_locator (env : BrowserEnv) (m : String)
    (hfail : env.primaryFrame = .error m) :
    (∀ u, env.dataSrcAttr = some u → u.isEmpty = false →
      env.directNav (normalizeWayinUrl u) = .ok () →
      locateForm env = .ok (.fallbackMain (normalizeWayinUrl u))) ∧
    (∀ u, env.dataSrcAttr = none → scanDataSrc env.pageHtml = some u →
      (∃ body, body ≠ [] ∧ u.data = wayinPathChars ++ body) ∧
      normalizeWayinUrl u = "https:" ++ u ∧
      (env.directNav ("https:" ++ u) = .ok () →
        locateForm env = .ok (.fallbackMain ("https:" ++ u)))) ∧
    (env.dataSrcAttr = none → scanDataSrc env.pageHtml = none →
      locateForm env =
        .error "Could not find Wayin URL (data-src) for direct navigation") ∧
    (∀ m2, locateForm env = .error m2 →
      ∀ (etDate : Nat → String) (site : String) (t0 tr : Nat)
        (file fileRec : ReadResult) (wb : WriteBehavior),
        checkRateLimit etDate t0 site file = true →
        env.launch = .ok () → env.gotoEntry = .ok () →
        (submitEntry etDate site false t0 tr file fileRec wb env).result = false ∧
        (submitEntry etDate site false t0 tr file fileRec wb env).submitInvoked
          = false) := by
  refine ⟨?_, ?_, ?_, ?_⟩
  · intro u hattr hne hnav
    simp [locateForm, hfail, hattr, hne, hnav]
  · intro u hattr hscan
    obtain ⟨body, hbody, hdata⟩ := scanDataSrc_sound hscan
    have hnorm := normalizeWayinUrl_wayin hdata
    refine ⟨⟨body, hbody, hdata⟩, hnorm, ?_⟩
    intro hnav
    simp [locateForm, hfail, hattr, hscan, hnorm, hnav]
  · intro hattr hscan
    simp [locateForm, hfail, hattr, hscan]
  · intro m2 hloc etDate site t0 tr file fileRec wb hallow hlaunch hgoto
    have hrt : runTry false env = .thrown m2 true none := by
      unfold runTry
      rw [hlaunch, hgoto, hloc]
    have hall := submitEntry_allowed etDate site t0 tr file fileRec wb env hallow
    rw [hall]
    simp [hrt, TryExit.ret, TryExit.invoked]

/-- Witness for C8 at a concrete input: the iframe never loads, the markup
holds a protocol-relative data-src URL, and the locator resolves the main
frame of the normalized URL as the session. -/
theorem c8_fallback_locator_w :
    locateForm envScanFallback = .ok (.fallbackMain ("https:" ++ "//xd.wayin.com/abc")) := by
  have h := (c8_fallback_locator envScanFallback "Wayin iframe content did not load"
    rfl).2.1 "//xd.wayin.com/abc" rfl (by rfl)
  exact h.2.2 rfl

/-- Claim C9: after the submit click and settle in a non-dry allowed run,
a page text holding one of the fixed success substrings (case-insensitive,
"Thank you for entering" among the texts recognized) classifies as success
and the pipeline returns true; a text holding none of them with no thrown
error is the ambiguous case, still classified success, and the pipeline
returns true; a thrown submit click makes the pipeline return false. -/
theorem c9_submit_classifier (etDate : Nat → String) (site : String)
    (t0 tr : Nat) (file fileRec : ReadResult) (wb : WriteBehavior)
    (env : BrowserEnv)
    (hallow : checkRateLimit etDate t0 site file = true)
    (hlaunch : env.launch = .ok ()) (hgoto : env.gotoEntry = .ok ())
    (hframe : env.primaryFrame = .ok ()) (hemail : env.emailClick = .ok ())
    (hcap : env.captchaSolved = true) :
    (env.submitClick = .ok () →
      (submitEntry etDate site false t0 tr file fileRec wb env).result = true ∧
      (submitEntry etDate site false t0 tr file fileRec wb env).submitInvoked = true) ∧
    (∀ m, env.submitClick = .error m →
      (submitEntry etDate site false t0 tr file fileRec wb env).result = false) ∧
    (∀ text, hasSuccessKeyword text = true → classifyConfirmation text = true) ∧
    (∀ text, hasSuccessKeyword text = false → classifyConfirmation text = true) ∧
    hasSuccessKeyword "Thank you for entering" = true := by
  have hrt := runTry_all_ok false env hlaunch hgoto hframe hemail
  rw [hcap] at hrt
  simp at hrt
  have hall := submitEntry_allowed etDate site t0 tr file fileRec wb env hallow
  refine ⟨?_, ?_, ?_, ?_, ?_⟩
  · intro hclick
    rw [hall]
    simp [hrt, TryExit.ret, TryExit.invoked, submitStage, hclick, classifyConfirmation]
  · intro m hclick
    rw [hall]
    simp [hrt, TryExit.ret, submitStage, hclick]
  · intro text h
    simp [classifyConfirmation]
  · intro text h
    simp [classifyConfirmation]
  · decide

/-- Witness for C9 at a concrete input: every stage succeeds, the page
shows the success phrase, and the pipeline returns true. -/
theorem c9_submit_classifier_w :
    (submitEntry etConst "hgtv" false 0 5 .missing .missing .ok envAllOk).result = true :=
  ((c9_submit_classifier etConst "hgtv" 0 5 .missing .missing .ok envAllOk
    rfl rfl rfl rfl rfl rfl).1 rfl).1

end Hgtv
